import Mathlib

/-!
Verification development for the quiz-chain solving engine.

The repository has two variant implementations of the engine:
* `main.py` — a Flask front door plus `solve_quiz_url`, a Playwright-driven
  orchestration loop over a `QuestionManager` of challenge windows, with an
  ordered chain of extraction handlers (`HANDLERS`).
* `receive_request.py` — a FastAPI front door plus `process_request`, a linear
  chain follower that decodes base64-obfuscated pages and asks an external
  completion service for answers.

This file shallowly embeds both: pure helper functions are translated
directly; stateful loops become explicit state passing with an oracle
environment standing for the external world (network, browser rendering,
HTML parsing libraries, the completion service, and the wall clock, which is
modelled as a stream of successive `time.time()` readings indexed by a tick
counter).  Machine floats used only as counters/timestamps are modelled as
`Nat` (seconds); answer values and confidences as exact fractions (`Frac`
below, bridged to `ℚ` in theorem statements where convenient).
-/

/-- Exact rational numbers as plain numerator/denominator pairs.  Python's
floats enter this development only as decimal literals and sums/products of
such, all exactly representable; `Frac` keeps that arithmetic
kernel-reducible (Mathlib's `ℚ` operations do not reduce inside `decide`),
and `Frac.toRat` bridges to `ℚ` for readable theorem statements.  The
denominator is positive for every value this development constructs. -/

structure Frac where
  num : Int
  den : Nat
  deriving DecidableEq

/-- Embed a `Frac` into the rationals. -/

def Frac.toRat (x : Frac) : ℚ := (x.num : ℚ) / (x.den : ℚ)

/-- Value equality of fractions by cross-multiplication; models Python `==`
on the floats this development manipulates. -/

def Frac.eqv (a b : Frac) : Bool := a.num * (b.den : Int) == b.num * (a.den : Int)

instance : BEq Frac := ⟨Frac.eqv⟩

/-- Sum of fractions (exact). -/

def Frac.add (a b : Frac) : Frac :=
  ⟨a.num * (b.den : Int) + b.num * (a.den : Int), a.den * b.den⟩

/-- Embed an integer. -/

def Frac.ofInt (n : Int) : Frac := ⟨n, 1⟩

instance (n : Nat) : OfNat Frac n := ⟨⟨n, 1⟩⟩

/-- JSON values, as returned by `resp.json()` in both sources.  Numbers are
modelled as exact fractions. -/

inductive Json where
  | null
  | bool (b : Bool)
  | num (q : Frac)
  | str (s : String)
  | arr (xs : List Json)
  | obj (kvs : List (String × Json))

/-- Structural boolean equality on JSON values (Python `==` on parsed JSON). -/

def Json.beq : Json → Json → Bool
  | .null, .null => true
  | .bool a, .bool b => a == b
  | .num a, .num b => a == b
  | .str a, .str b => a == b
  | .arr xs, .arr ys => beqList xs ys
  | .obj xs, .obj ys => beqObj xs ys
  | _, _ => false
where
  beqList : List Json → List Json → Bool
    | [], [] => true
    | x :: xs, y :: ys => Json.beq x y && beqList xs ys
    | _, _ => false
  beqObj : List (String × Json) → List (String × Json) → Bool
    | [], [] => true
    | (k1, v1) :: xs, (k2, v2) :: ys => k1 == k2 && Json.beq v1 v2 && beqObj xs ys
    | _, _ => false

instance : BEq Json := ⟨Json.beq⟩

/-- Dictionary lookup: `d.get(key)` on a parsed JSON object.  On a non-object
value it yields `none`, which also models the sources' `isinstance(resp, dict)`
guards (a failed guard and a missing key are observationally the same for the
code under study). -/

def Json.get? : Json → String → Option Json
  | .obj kvs, key => (kvs.find? (fun kv => kv.fst == key)).map (fun kv => kv.snd)
  | _, _ => none

/-- Python truthiness of a JSON value (`if resp.get("url"):` etc.). -/

def Json.truthy : Json → Bool
  | .null => false
  | .bool b => b
  | .num q => q.num != 0
  | .str s => s != ""
  | .arr xs => !xs.isEmpty
  | .obj kvs => !kvs.isEmpty

/-- Truthiness of an optional JSON value: `d.get(k)` is falsy when the key is
absent (Python `None`) or when the value itself is falsy. -/

def jtruthy : Option Json → Bool
  | none => false
  | some v => v.truthy

/-- Test for Python `d.get("correct") is True`: the value must be literally
the boolean `True`, not merely truthy. -/

def jisTrue : Option Json → Bool
  | some (Json.bool true) => true
  | _ => false

/-!
Base64 layer.  Both sources call `base64.b64decode` on a payload string and
then decode the bytes as UTF-8 (`errors="ignore"` in `main.py`,
`errors="replace"` in `receive_request.py`).  We model bytes as `Nat` values
below 256 and reproduce CPython's non-strict `binascii.a2b_base64`:
characters outside the alphabet are skipped; a padding character completes a
quad holding 2 or 3 data characters and stops processing; an input ending
with a dangling quad of 1-3 data characters is an error (`None`).
-/

/-- Standard base64 alphabet, index `v` holds the character for value `v`. -/

def b64alpha : List Char :=
  "ABCDEFGHIJKLMNOPQRSTUVWXYZabcdefghijklmnopqrstuvwxyz0123456789+/".toList

/-- Padding character `=`. -/

def padChar : Char := Char.ofNat 61

/-- Value of a base64 alphabet character, `none` for anything else. -/

def b64val (c : Char) : Option Nat :=
  b64alpha.findIdx? (fun d => d == c)

/-- Character for a 6-bit value. -/

def b64chr (v : Nat) : Char := b64alpha.getD v (Char.ofNat 65)

/-- Bytes of a completed quad of four 6-bit values. -/

def quadBytes (a b c d : Nat) : List Nat :=
  [a * 4 + b / 16, (b % 16) * 16 + c / 4, (c % 4) * 64 + d]

/-- Bytes recovered from a quad cut short by padding (2 or 3 data chars). -/

def finishQuad : List Nat → List Nat
  | [a, b] => [a * 4 + b / 16]
  | [a, b, c] => [a * 4 + b / 16, (b % 16) * 16 + c / 4]
  | _ => []

/-- Core of CPython's non-strict `binascii.a2b_base64`: `quad` holds the 6-bit
values of the current quad (at most 3), `pads` the number of padding
characters seen so far. -/

def a2bAux : List Char → List Nat → Nat → Option (List Nat)
  | [], quad, _ =>
      if quad.isEmpty then some [] else none
  | c :: rest, quad, pads =>
      if c == padChar then
        if quad.length ≥ 2 && quad.length + (pads + 1) ≥ 4 then
          some (finishQuad quad)
        else
          a2bAux rest quad (pads + 1)
      else
        match b64val c with
        | none => a2bAux rest quad pads
        | some v =>
            match quad ++ [v] with
            | [a, b, c', d] => (a2bAux rest [] pads).map (fun bs => quadBytes a b c' d ++ bs)
            | quad' => a2bAux rest quad' pads

/-- Model of `base64.b64decode(payload)` for a `str` payload: the string is
first ASCII-encoded (non-ASCII input is an error), then fed to the lenient
base64 decoder. -/

def b64decodeBytes (s : String) : Option (List Nat) :=
  if s.toList.all (fun c => c.toNat < 128) then a2bAux s.toList [] 0 else none

/-- Standard base64 encoding of a byte sequence (`base64.b64encode`); this is
the "re-encoding" direction of the spec's round-trip law. -/

def b64encodeBytes : List Nat → List Char
  | [] => []
  | [b] => [b64chr (b / 4), b64chr (b % 4 * 16), padChar, padChar]
  | [b, c] => [b64chr (b / 4), b64chr (b % 4 * 16 + c / 16), b64chr (c % 16 * 4), padChar]
  | b :: c :: d :: rest =>
      b64chr (b / 4) :: b64chr (b % 4 * 16 + c / 16) :: b64chr (c % 16 * 4 + d / 64) ::
        b64chr (d % 64) :: b64encodeBytes rest

/-- String form of the encoder. -/

def b64encodeStr (bs : List Nat) : String := String.mk (b64encodeBytes bs)

/-!
UTF-8 layer, modelling `bytes.decode("utf-8", errors=...)` and
`str.encode("utf-8")` from CPython.  The decoder below performs the standard
validity checks (continuation ranges, overlong forms, surrogates, the
U+10FFFF ceiling); on a malformed sequence it consumes one byte and emits the
replacement character U+FFFD (`errors="replace"`) or nothing
(`errors="ignore"`); CPython's grouping of consecutive malformed bytes into
replacement characters is approximated one byte at a time, which agrees with
CPython on every input in which malformed bytes are isolated.  No claim in
this development depends on malformed input beyond its mere possibility.
-/

/-- Replacement character U+FFFD. -/

def replChar : Char := Char.ofNat 65533

/-- Check for a UTF-8 continuation byte. -/

def isCont (b : Nat) : Bool := 128 ≤ b && b < 192

/-- Decode one UTF-8 scalar from the head of the byte list; returns the code
point and the remaining bytes, or `none` if the head is malformed. -/

def utf8DecodeOne : List Nat → Option (Nat × List Nat)
  | [] => none
  | b :: rest =>
      if b < 128 then some (b, rest)
      else if 194 ≤ b && b < 224 then
        match rest with
        | b1 :: rest' =>
            if isCont b1 then some ((b - 192) * 64 + (b1 - 128), rest') else none
        | _ => none
      else if 224 ≤ b && b < 240 then
        match rest with
        | b1 :: b2 :: rest' =>
            if isCont b1 && isCont b2 then
              let cp := (b - 224) * 4096 + (b1 - 128) * 64 + (b2 - 128)
              if 2048 ≤ cp && !(55296 ≤ cp && cp < 57344) then some (cp, rest') else none
            else none
        | _ => none
      else if 240 ≤ b && b < 245 then
        match rest with
        | b1 :: b2 :: b3 :: rest' =>
            if isCont b1 && isCont b2 && isCont b3 then
              let cp := (b - 240) * 262144 + (b1 - 128) * 4096 + (b2 - 128) * 64 + (b3 - 128)
              if 65536 ≤ cp && cp < 1114112 then some (cp, rest') else none
            else none
        | _ => none
      else none

/-- Decoder driver: `repl` tells whether malformed bytes produce U+FFFD
(`errors="replace"`) or are dropped (`errors="ignore"`).  Runs on fuel equal
to the byte count, which suffices because each step consumes at least one
byte. -/

def utf8DecodeAux (repl : Bool) : Nat → List Nat → List Char
  | 0, _ => []
  | _, [] => []
  | fuel + 1, b :: rest =>
      match utf8DecodeOne (b :: rest) with
      | some (cp, rest') => Char.ofNat cp :: utf8DecodeAux repl fuel rest'
      | none =>
          if repl then replChar :: utf8DecodeAux repl fuel rest
          else utf8DecodeAux repl fuel rest

/-- Model of `bytes.decode("utf-8", errors="replace")`. -/

def utf8DecodeReplace (bs : List Nat) : String :=
  String.mk (utf8DecodeAux true bs.length bs)

/-- Model of `bytes.decode("utf-8", errors="ignore")`. -/

def utf8DecodeIgnore (bs : List Nat) : String :=
  String.mk (utf8DecodeAux false bs.length bs)

/-- UTF-8 encoding of one code point (the code point of a `Char` is always in
range, so the catch-all never fires on real input). -/

def utf8EncodeChar (c : Char) : List Nat :=
  let n := c.toNat
  if n < 128 then [n]
  else if n < 2048 then [192 + n / 64, 128 + n % 64]
  else if n < 65536 then [224 + n / 4096, 128 + n / 64 % 64, 128 + n % 64]
  else [240 + n / 262144, 128 + n / 4096 % 64, 128 + n / 64 % 64, 128 + n % 64]

/-- Model of `str.encode("utf-8")`. -/

def utf8Encode (s : String) : List Nat :=
  s.toList.flatMap utf8EncodeChar

/-!
String scanning helpers shared by the regex-based extraction code in both
sources.  All regexes in the sources are simple enough that their semantics
on the relevant inputs is "first match of a literal/character-class scan",
which is what these helpers implement.
-/

/-- Check that `needle` is an initial segment of `hay` (character lists). -/

def listStartsWith : List Char → List Char → Bool
  | _, [] => true
  | [], _ :: _ => false
  | h :: hs, n :: ns => h == n && listStartsWith hs ns

/-- Check for a substring occurrence, as Python's `needle in hay`. -/

def listHasSub (hay needle : List Char) : Bool :=
  listStartsWith hay needle ||
    match hay with
    | [] => false
    | _ :: rest => listHasSub rest needle

/-- String wrapper for substring containment (`"sum" in html.lower()`). -/

def strHasSub (hay needle : String) : Bool := listHasSub hay.toList needle.toList

/-- ASCII lowercasing, modelling `str.lower()` on the ASCII inputs the claims
exercise. -/

def asciiLower (s : String) : String :=
  String.mk (s.toList.map fun c =>
    if 65 ≤ c.toNat && c.toNat ≤ 90 then Char.ofNat (c.toNat + 32) else c)

/-!
JSON parser, modelling `json.loads` closely enough for the object/string/
number/boolean/null payloads the handlers consume.  Not modelled (no claim
depends on them): the `NaN`/`Infinity` extensions and lone-surrogate `\u`
escapes, which this model rejects.
-/

/-- Whitespace recognised by the JSON grammar. -/

def jsonWs (c : Char) : Bool :=
  c.toNat == 32 || c.toNat == 9 || c.toNat == 10 || c.toNat == 13

/-- Skip leading JSON whitespace. -/

def skipWs (cs : List Char) : List Char := cs.dropWhile jsonWs

/-- Value of an ASCII hex digit. -/

def hexVal (c : Char) : Option Nat :=
  let n := c.toNat
  if 48 ≤ n && n ≤ 57 then some (n - 48)
  else if 97 ≤ n && n ≤ 102 then some (n - 87)
  else if 65 ≤ n && n ≤ 70 then some (n - 55)
  else none

/-- Parse the body of a JSON string after the opening quote; returns the
decoded characters and the input after the closing quote. -/

def jsonStrAux : Nat → List Char → Option (List Char × List Char)
  | 0, _ => none
  | _, [] => none
  | fuel + 1, c :: rest =>
      if c == Char.ofNat 34 then some ([], rest)
      else if c == Char.ofNat 92 then
        match rest with
        | [] => none
        | e :: rest' =>
            let simpleEsc : Option Char :=
              if e == Char.ofNat 34 then some (Char.ofNat 34)
              else if e == Char.ofNat 92 then some (Char.ofNat 92)
              else if e == Char.ofNat 47 then some (Char.ofNat 47)
              else if e == Char.ofNat 98 then some (Char.ofNat 8)
              else if e == Char.ofNat 102 then some (Char.ofNat 12)
              else if e == Char.ofNat 110 then some (Char.ofNat 10)
              else if e == Char.ofNat 114 then some (Char.ofNat 13)
              else if e == Char.ofNat 116 then some (Char.ofNat 9)
              else none
            match simpleEsc with
            | some d => (jsonStrAux fuel rest').map (fun p => (d :: p.1, p.2))
            | none =>
                if e == Char.ofNat 117 then
                  match rest' with
                  | h1 :: h2 :: h3 :: h4 :: rest2 =>
                      match hexVal h1, hexVal h2, hexVal h3, hexVal h4 with
                      | some v1, some v2, some v3, some v4 =>
                          let cp := v1 * 4096 + v2 * 256 + v3 * 16 + v4
                          if 55296 ≤ cp && cp < 57344 then none
                          else (jsonStrAux fuel rest2).map (fun p => (Char.ofNat cp :: p.1, p.2))
                      | _, _, _, _ => none
                  | _ => none
                else none
      else if c.toNat < 32 then none
      else (jsonStrAux fuel rest).map (fun p => (c :: p.1, p.2))

/-- Check for an ASCII digit. -/

def isDigitCh (c : Char) : Bool := 48 ≤ c.toNat && c.toNat ≤ 57

/-- Natural number denoted by a digit list. -/

def digitsToNat (ds : List Char) : Nat :=
  ds.foldl (fun acc d => acc * 10 + (d.toNat - 48)) 0

/-- Parse a JSON number at the head of the input, returning its rational
value and the rest. -/

def jsonNum (cs : List Char) : Option (Frac × List Char) :=
  let (neg, cs1) :=
    match cs with
    | c :: rest => if c == Char.ofNat 45 then (true, rest) else (false, cs)
    | [] => (false, cs)
  let intDigits := cs1.takeWhile isDigitCh
  let cs2 := cs1.drop intDigits.length
  if intDigits.isEmpty then none
  else if intDigits.length > 1 && intDigits.headD (Char.ofNat 48) == Char.ofNat 48 then none
  else
    let (fracDigits, cs3) :=
      match cs2 with
      | c :: rest =>
          if c == Char.ofNat 46 then
            let fd := rest.takeWhile isDigitCh
            (fd, rest.drop fd.length)
          else ([], cs2)
      | [] => ([], cs2)
    if cs2 ≠ cs3 && fracDigits.isEmpty then none
    else
      let (expVal, cs4) : Option Int × List Char :=
        match cs3 with
        | c :: rest =>
            if c == Char.ofNat 101 || c == Char.ofNat 69 then
              let (esign, rest1) :=
                match rest with
                | d :: rest' =>
                    if d == Char.ofNat 45 then ((-1 : Int), rest')
                    else if d == Char.ofNat 43 then ((1 : Int), rest')
                    else ((1 : Int), rest)
                | [] => ((1 : Int), rest)
              let ed := rest1.takeWhile isDigitCh
              if ed.isEmpty then (none, cs3)
              else (some (esign * (digitsToNat ed : Int)), rest1.drop ed.length)
            else (some 0, cs3)
        | [] => (some 0, cs3)
      match expVal with
      | none => none
      | some e =>
          let mNum : Nat := digitsToNat intDigits * 10 ^ fracDigits.length +
            digitsToNat fracDigits
          let mDen : Nat := 10 ^ fracDigits.length
          let sNum : Int := if neg then -(mNum : Int) else (mNum : Int)
          let value : Frac :=
            if 0 ≤ e then ⟨sNum * (10 ^ e.toNat : Nat), mDen⟩
            else ⟨sNum, mDen * 10 ^ (-e).toNat⟩
          some (value, cs4)

/-- Mode of the recursive-descent JSON parser: a whole value, the members of
an object after the opening brace, or the elements of an array after the
opening bracket (`first` marks the position right after the opener, where a
closer ends an empty container). -/

inductive PMode where
  | val
  | members (first : Bool)
  | elems (first : Bool)

/-- Recursive-descent JSON parser (fuelled; recursion on the fuel keeps the
function kernel-reducible). -/

def jsonP : Nat → PMode → List Char → Option (Json × List Char)
  | 0, _, _ => none
  | fuel + 1, PMode.val, cs0 =>
      let cs := skipWs cs0
      match cs with
      | [] => none
      | c :: rest =>
          if c == Char.ofNat 34 then
            (jsonStrAux (fuel + 1) rest).map (fun p => (Json.str (String.mk p.1), p.2))
          else if c == Char.ofNat 123 then jsonP fuel (PMode.members true) (skipWs rest)
          else if c == Char.ofNat 91 then jsonP fuel (PMode.elems true) (skipWs rest)
          else if listStartsWith cs "true".toList then some (Json.bool true, cs.drop 4)
          else if listStartsWith cs "false".toList then some (Json.bool false, cs.drop 5)
          else if listStartsWith cs "null".toList then some (Json.null, cs.drop 4)
          else (jsonNum cs).map (fun p => (Json.num p.1, p.2))
  | fuel + 1, PMode.members first, cs =>
      match cs with
      | c :: rest =>
          if first && c == Char.ofNat 125 then some (Json.obj [], rest)
          else
            if c == Char.ofNat 34 then
              match jsonStrAux (fuel + 1) rest with
              | none => none
              | some (key, afterKey) =>
                  match skipWs afterKey with
                  | c2 :: rest2 =>
                      if c2 == Char.ofNat 58 then
                        match jsonP fuel PMode.val rest2 with
                        | none => none
                        | some (v, afterVal) =>
                            match skipWs afterVal with
                            | c3 :: rest3 =>
                                if c3 == Char.ofNat 44 then
                                  match jsonP fuel (PMode.members false) (skipWs rest3) with
                                  | some (Json.obj kvs, afterObj) =>
                                      some (Json.obj ((String.mk key, v) :: kvs), afterObj)
                                  | _ => none
                                else if c3 == Char.ofNat 125 then
                                  some (Json.obj [(String.mk key, v)], rest3)
                                else none
                            | [] => none
                      else none
                  | [] => none
            else none
      | [] => none
  | fuel + 1, PMode.elems first, cs =>
      match cs with
      | c :: rest =>
          if first && c == Char.ofNat 93 then some (Json.arr [], rest)
          else
            match jsonP fuel PMode.val cs with
            | none => none
            | some (v, afterVal) =>
                match skipWs afterVal with
                | c2 :: rest2 =>
                    if c2 == Char.ofNat 44 then
                      match jsonP fuel (PMode.elems false) (skipWs rest2) with
                      | some (Json.arr xs, afterArr) => some (Json.arr (v :: xs), afterArr)
                      | _ => none
                    else if c2 == Char.ofNat 93 then some (Json.arr [v], rest2)
                    else none
                | [] => none
      | [] => none

/-- Model of `json.loads`: parse one JSON value and require only whitespace
after it. -/

def jsonParse (s : String) : Option Json :=
  match jsonP (2 * s.length + 4) PMode.val s.toList with
  | some (v, rest) => if (skipWs rest).isEmpty then some v else none
  | none => none

/-!
Extraction handler chain of `main.py`.  Each handler takes the rendered page
markup and the page URL (the `page` browser handle is passed in the source
but used by no handler) and returns either `None` or a dict
`{"answer": ..., "confidence": ...}`.  HTML/table parsing by
BeautifulSoup/pandas and file downloads are external collaborators: they are
supplied as explicit parameters (`tablesOf` and the whole
`download_and_parse_handler`), as the spec's §1 places low-level document
parsing and transport outside the core.
-/

/-- Result dict of a handler: `{"answer": ..., "confidence": ...}`.  The
confidence is optional because the consuming loop reads it with
`out.get("confidence", 0.7)`. -/

structure HandlerOut where
  answer : Json
  confidence : Option Frac

/-- Type of an extraction handler. -/

def Handler : Type := String → Json → Option HandlerOut

/-- Scan for the first match of the `main.py` regex `atob\(` + backtick +
`([^` + backtick + `]+)` + backtick + `\)` (a backtick-quoted `atob` call)
and return the captured payload: after the literal "atob(" and opening
backtick, a non-empty run of non-backtick characters, then a closing
backtick and ")". -/

def findAtobTick : List Char → Option String
  | [] => none
  | c :: rest =>
      let here : Option String :=
        if listStartsWith (c :: rest) ("atob(".toList ++ [Char.ofNat 96]) then
          let body := (c :: rest).drop 6
          let run := body.takeWhile (fun d => d != Char.ofNat 96)
          if run.isEmpty then none
          else
            match body.drop run.length with
            | d :: e :: _ =>
                if d == Char.ofNat 96 && e == Char.ofNat 41 then some (String.mk run)
                else none
            | _ => none
        else none
      match here with
      | some s => some s
      | none => findAtobTick rest

/-- Scan for the first JSON-looking block per the `main.py` regex
`\x7b[\s\S]*?\x7d`: the substring from the first opening brace through the
first closing brace at or after it. -/

def firstBraceBlock (cs : List Char) : Option String :=
  match cs.dropWhile (fun c => c != Char.ofNat 123) with
  | [] => none
  | b :: rest =>
      let inner := rest.takeWhile (fun c => c != Char.ofNat 125)
      match rest.drop inner.length with
      | e :: _ => some (String.mk (b :: inner ++ [e]))
      | [] => none

/-- Model of `base64_json_handler` in `main.py`: find a backtick-quoted
`atob` payload, base64-decode it, decode the bytes as UTF-8 with
`errors="ignore"`, locate the first brace-delimited block, parse it as JSON
and, if the object has an `"answer"` member, return it at confidence 0.99.
Any failure along the way yields `None`. -/

def base64_json_handler : Handler := fun html _url =>
  match findAtobTick html.toList with
  | none => none
  | some payload =>
      match b64decodeBytes payload with
      | none => none
      | some bs =>
          let txt := utf8DecodeIgnore bs
          match firstBraceBlock txt.toList with
          | none => none
          | some block =>
              match jsonParse block with
              | some data =>
                  match data.get? "answer" with
                  | some v => some ⟨v, some ⟨99, 100⟩⟩
                  | none => none
              | none => none

/-!
Tabular pipeline of `main.py`: `parse_html_table_sum` and the handlers built
on it.  BeautifulSoup+pandas HTML parsing is an external collaborator per
spec §1 ("parse document → table of fields"); it enters as a `tablesOf`
parameter mapping page markup to its list of tables, each a header row plus
data rows.  `pd.to_numeric(..., errors="coerce")` on a cell string and
Python's `float()` accept the same decimal-literal forms for every input in
this development and are modelled by one parser (`pyFloatParse`); the
`NaN`/`inf` literal spellings accepted by CPython are not modelled, and no
claim depends on them.
-/

/-- Table of fields produced by the external HTML parser: first row of the
markup becomes the header (pandas `read_html` column names), the rest the
data rows. -/

structure Table where
  header : List String
  rows : List (List String)

/-- Whitespace class of Python regexes and `str.strip()`. -/

def pyWs (c : Char) : Bool :=
  c.toNat == 32 || c.toNat == 9 || c.toNat == 10 || c.toNat == 13 ||
    c.toNat == 11 || c.toNat == 12

/-- Exact value of a parsed decimal literal. -/

def mkDecimal (neg : Bool) (intDigits fracDigits : List Char) (e : Int) : Frac :=
  let mNum : Nat := digitsToNat intDigits * 10 ^ fracDigits.length + digitsToNat fracDigits
  let mDen : Nat := 10 ^ fracDigits.length
  let sNum : Int := if neg then -(mNum : Int) else (mNum : Int)
  if 0 ≤ e then ⟨sNum * (10 ^ e.toNat : Nat), mDen⟩
  else ⟨sNum, mDen * 10 ^ (-e).toNat⟩

/-- Parse a decimal literal the way `float()` / `pd.to_numeric` coerce a
string: optional surrounding whitespace, optional sign, digits with an
optional fractional part (at least one digit overall), optional exponent. -/

def pyFloatParse (s : String) : Option Frac :=
  let cs0 := (s.toList.dropWhile pyWs).reverse
  let cs := (cs0.dropWhile pyWs).reverse
  let (neg, cs1) :=
    match cs with
    | c :: rest =>
        if c == Char.ofNat 45 then (true, rest)
        else if c == Char.ofNat 43 then (false, rest)
        else (false, cs)
    | [] => (false, cs)
  let intDigits := cs1.takeWhile isDigitCh
  let cs2 := cs1.drop intDigits.length
  let (fracDigits, cs3) :=
    match cs2 with
    | c :: rest =>
        if c == Char.ofNat 46 then
          let fd := rest.takeWhile isDigitCh
          (fd, rest.drop fd.length)
        else (([] : List Char), cs2)
    | [] => (([] : List Char), cs2)
  if intDigits.isEmpty && fracDigits.isEmpty then none
  else
    let (expVal, cs4) : Option Int × List Char :=
      match cs3 with
      | c :: rest =>
          if c == Char.ofNat 101 || c == Char.ofNat 69 then
            let (esign, rest1) :=
              match rest with
              | d :: rest' =>
                  if d == Char.ofNat 45 then ((-1 : Int), rest')
                  else if d == Char.ofNat 43 then ((1 : Int), rest)
                  else ((1 : Int), rest)
              | [] => ((1 : Int), rest)
            let ed := rest1.takeWhile isDigitCh
            if ed.isEmpty then (none, cs3)
            else (some (esign * (digitsToNat ed : Int)), rest1.drop ed.length)
          else (none, cs3)
      | [] => (some 0, cs3)
    match expVal with
    | none => if cs3.isEmpty then some (mkDecimal neg intDigits fracDigits 0) else none
    | some e => if cs4.isEmpty then some (mkDecimal neg intDigits fracDigits e) else none

/-- Model of `.str.replace(",", "")`: drop every comma from the cell. -/

def stripCommasCell (s : String) : String :=
  String.mk (s.toList.filter (fun c => c != Char.ofNat 44))

/-- Coercion of one cell by `pd.to_numeric(cell.replace(",", ""),
errors="coerce")`: `none` is NaN. -/

def toNumericCell (s : String) : Option Frac := pyFloatParse (stripCommasCell s)

/-- Column of cells at index `i` of a table. -/

def columnAt (t : Table) (i : Nat) : List String := t.rows.map (fun r => r.getD i "")

/-- Index of the first column with the given name. -/

def colIndex (t : Table) (name : String) : Option Nat :=
  t.header.findIdx? (fun h => h == name)

/-- Pandas `Series.sum()` over a coerced column: NaN entries are skipped and
the empty / all-NaN sum is 0.0. -/

def sumCol (cells : List String) : Frac :=
  (cells.filterMap toNumericCell).foldl Frac.add 0

/-- Count of non-NaN entries (`vals.notna().sum()`). -/

def notnaCount (cells : List String) : Nat := (cells.filterMap toNumericCell).length

/-- Fallback loop of `parse_html_table_sum`: walk the columns in order and
return the sum of the first one containing at least one numeric value. -/

def firstNumericColSum (t : Table) : List Nat → Option Frac
  | [] => none
  | i :: rest =>
      if notnaCount (columnAt t i) > 0 then some (sumCol (columnAt t i))
      else firstNumericColSum t rest

/-- Model of `parse_html_table_sum` in `main.py`: take the page's first
table; if a column named `colname` exists, coerce it to numbers (commas
stripped) and return its sum — even when every entry coerces to NaN; only
when no such column exists, fall back to the first column with any numeric
values; `None` when the page has no table or no numeric column. -/

def parse_html_table_sum (tablesOf : String → List Table) (html : String)
    (colname : String) : Option Frac :=
  match (tablesOf html).head? with
  | none => none
  | some t =>
      match colIndex t colname with
      | some i => some (sumCol (columnAt t i))
      | none => firstNumericColSum t (List.range t.header.length)

/-- Model of `html_table_handler` in `main.py`: when the page text mentions
"sum" and "value" (case-insensitively), return the table sum for the
`value` column at confidence 0.92; `None` when the parse yields `None`
(`if val is not None`). -/

def html_table_handler (tablesOf : String → List Table) : Handler := fun html _url =>
  if strHasSub (asciiLower html) "sum" && strHasSub (asciiLower html) "value" then
    match parse_html_table_sum tablesOf html "value" with
    | some v => some ⟨Json.num v, some ⟨92, 100⟩⟩
    | none => none
  else none

/-- Case-insensitive match of an ASCII literal at the head of the input. -/

def startsWithCI : List Char → List Char → Bool
  | _, [] => true
  | [], _ :: _ => false
  | h :: hs, n :: ns =>
      (if 65 ≤ h.toNat && h.toNat ≤ 90 then Char.ofNat (h.toNat + 32) else h) ==
        (if 65 ≤ n.toNat && n.toNat ≤ 90 then Char.ofNat (n.toNat + 32) else n) &&
        startsWithCI hs ns

/-- Character class `[0-9\.\,]` of the fallback regex. -/

def isNumFragCh (c : Char) : Bool :=
  isDigitCh c || c == Char.ofNat 46 || c == Char.ofNat 44

/-- Attempt the `main.py` regex `answer\s*is\s*[:\s]*([0-9\.\,]+)` (with
`re.I`) at the head of the input, returning the captured group. -/

def regexAnswerIsAt (cs : List Char) : Option String :=
  if startsWithCI cs "answer".toList then
    let r1 := (cs.drop 6).dropWhile pyWs
    if startsWithCI r1 "is".toList then
      let r2 := (r1.drop 2).dropWhile pyWs
      let r3 := r2.dropWhile (fun c => c == Char.ofNat 58 || pyWs c)
      let run := r3.takeWhile isNumFragCh
      if run.isEmpty then none else some (String.mk run)
    else none
  else none

/-- First match of the fallback regex anywhere in the input. -/

def findAnswerIs : List Char → Option String
  | [] => none
  | c :: rest =>
      match regexAnswerIsAt (c :: rest) with
      | some s => some s
      | none => findAnswerIs rest

/-- Model of `simple_regex_number` in `main.py`: first "answer is N" match;
the captured fragment has its commas stripped and is fed to `float()`, a
conversion failure making the handler return `None`. -/

def simple_regex_number : Handler := fun html _url =>
  match findAnswerIs html.toList with
  | none => none
  | some frag =>
      match pyFloatParse (stripCommasCell frag) with
      | some v => some ⟨Json.num v, some ⟨4, 10⟩⟩
      | none => none

/-- Model of the handler loop in `solve_quiz_url` (`for h in HANDLERS: ...
break`): first handler returning a result short-circuits the rest; a
handler's internal exception (`except: pass`) behaves as "no result" and is
subsumed by handlers being total functions into `Option`. -/

def runFirst : List Handler → String → Json → Option HandlerOut
  | [], _, _ => none
  | h :: hs, html, url =>
      match h html url with
      | some out => some out
      | none => runFirst hs html url

/-- Registration-order handler list of `main.py` (the order of the
`@handler` decorators): embedded base64 JSON, table sum, linked-document
download (external network collaborator, supplied as a parameter), regex
fallback. -/

def HANDLERS (tablesOf : String → List Table) (downloadH : Handler) : List Handler :=
  [base64_json_handler, html_table_handler tablesOf, downloadH, simple_regex_number]

/-!
Multi-question manager and main solver loop of `main.py`.  The wall clock is
an oracle stream `clock : Nat → Nat` of successive `time.time()` readings
(seconds), consumed in program order and indexed by the `tick` counter of the
loop state; network effects (`page.goto` rendering, `requests.post`) are
oracles keyed by the tick current when the call is made.  The submission
history (`results`) and a trace of deadline checks and network operations
are accumulated in the state.
-/

/-- One question window dict of `QuestionManager` (`{url, start, deadline,
solved, answer, confidence}`).  The extra `idx` field models Python object
identity — the position at which the dict was appended to
`manager.questions` — so that marking "this" window solved is expressible on
values; it corresponds to no key of the source dict and is never compared
with data. -/

structure Question where
  idx : Nat
  url : Json
  start : Nat
  deadline : Nat
  solved : Bool
  answer : Json
  confidence : Frac

/-- Model of `QuestionManager.add`: append a fresh window opening `now` with
a 3-minute deadline. -/

def qmAdd (qs : List Question) (now : Nat) (url : Json) : List Question :=
  qs ++ [⟨qs.length, url, now, now + 180, false, Json.null, ⟨0, 1⟩⟩]

/-- Deadline order used by `active.sort(key=lambda x: x["deadline"])`. -/

def dlLE (a b : Question) : Prop := a.deadline ≤ b.deadline

instance : DecidableRel dlLE := fun a b => Nat.decLe a.deadline b.deadline

instance : IsTotal Question dlLE := ⟨fun a b => Nat.le_total a.deadline b.deadline⟩

instance : IsTrans Question dlLE := ⟨fun _ _ _ => Nat.le_trans⟩

/-- Model of `QuestionManager.next_unsolved`: among windows that are
unsolved and not yet expired, the one with the closest deadline (Python's
`list.sort` keyed on the deadline is a stable sort, the same function as
insertion sort; then `active[0]`), or `none`. -/

def next_unsolved (qs : List Question) (now : Nat) : Option Question :=
  let active := qs.filter (fun q => !q.solved && decide (now < q.deadline))
  if active.isEmpty then none
  else (active.insertionSort dlLE).head?

/-- Set the `solved` flag of the window with object identity `i`. -/

def markSolved (qs : List Question) (i : Nat) : List Question :=
  qs.map (fun q => if q.idx = i then {q with solved := true} else q)

/-- Events recorded by the loop embedding: a session-deadline comparison at
the loop head (`while time.time() < global_deadline`), a page fetch
(`page.goto`), and a submission POST (`requests.post`). -/

inductive TraceEv where
  | check (t : Nat) (passed : Bool)
  | render (url : Json)
  | post (url : String)

/-- Submission payload `{email, secret, url, answer}`. -/

structure Payload where
  email : String
  secret : String
  url : Json
  answer : Json

/-- One entry of the `results` history:
`{"question": url, "sent": payload, "response": resp}`. -/

structure SubmissionRecord where
  question : Json
  sent : Payload
  response : Json

/-- The body a judge answers a POST with: JSON, or a non-JSON text body. -/

inductive PostResult where
  | json (j : Json)
  | text (s : String)

/-- Response-wrapping of `post_answer`: `resp.json()` when the body parses,
otherwise the dict `{"text": resp.text}`. -/

def post_answer_resp : PostResult → Json
  | PostResult.json j => j
  | PostResult.text s => Json.obj [("text", Json.str s)]

/-- Oracle environment of one `solve_quiz_url` run: the clock stream, the
browser rendering of a URL (`none` models any `page.goto`/`page.content`
exception), the submit-URL discovery `find_submit_url_from_html` (repository
code whose BeautifulSoup/regex internals no claim touches, so it enters as
an oracle on its two arguments), the external table parser and
linked-document handler for the handler chain, and the judge's reaction to a
POST (`none` models a transport exception; the `Nat` is the HTTP status,
which the source binds but never uses). -/

structure Env where
  clock : Nat → Nat
  render : Nat → Json → Option String
  findSubmit : String → Json → Option String
  tablesOf : String → List Table
  downloadH : Handler
  post : Nat → String → Payload → Option (Nat × PostResult)

/-- State of the solver loop: the manager's windows, the accumulated
`results` history, the clock cursor, and the event trace. -/

structure LoopState where
  mgr : List Question
  results : List SubmissionRecord
  tick : Nat
  trace : List TraceEv

/-- Model of the response-classification tail of the `solve_quiz_url` loop
(`main.py` lines 331-337): mark the current window solved when the JSON
response has `correct == True`, then — independently — append a new window
for `resp["url"]` whenever that field is truthy.  `tAdd` is the clock
reading consumed by `manager.add`. -/

def handleResponse (mgr : List Question) (q : Question) (resp : Json) (tAdd : Nat) :
    List Question :=
  let mgr1 := if jisTrue (resp.get? "correct") then markSolved mgr q.idx else mgr
  match resp.get? "url" with
  | some v => if v.truthy then qmAdd mgr1 tAdd v else mgr1
  | none => mgr1

/-- Clock readings consumed by `handleResponse` (one inside `manager.add`
when and only when a truthy `url` field is present). -/

def handleRespTicks (resp : Json) : Nat :=
  match resp.get? "url" with
  | some v => if v.truthy then 1 else 0
  | none => 0

/-- One iteration of the `solve_quiz_url` while-loop body after the
session-deadline check: pick a window, re-check its own deadline, render,
discover the submit URL, run the handler chain, POST, record and classify
the response.  Returns the new state and `false` exactly on the `break`
when no window is selectable; every error path marks the current window
solved and continues. -/

def solveStep (env : Env) (email secret : String) (s : LoopState) : LoopState × Bool :=
  match next_unsolved s.mgr (env.clock s.tick) with
  | none => ({s with tick := s.tick + 1}, false)
  | some q =>
      let now := env.clock (s.tick + 1)
      let s1 : LoopState := {s with tick := s.tick + 2}
      if q.deadline ≤ now then
        ({s1 with mgr := markSolved s1.mgr q.idx}, true)
      else
        let s2 : LoopState := {s1 with trace := s1.trace ++ [TraceEv.render q.url]}
        match env.render s1.tick q.url with
        | none => ({s2 with mgr := markSolved s2.mgr q.idx}, true)
        | some html =>
            match env.findSubmit html q.url with
            | none => ({s2 with mgr := markSolved s2.mgr q.idx}, true)
            | some submitUrl =>
                match runFirst (HANDLERS env.tablesOf env.downloadH) html q.url with
                | none => ({s2 with mgr := markSolved s2.mgr q.idx}, true)
                | some out =>
                    if out.answer == Json.null then
                      ({s2 with mgr := markSolved s2.mgr q.idx}, true)
                    else
                      let payload : Payload := ⟨email, secret, q.url, out.answer⟩
                      let s3 : LoopState :=
                        {s2 with trace := s2.trace ++ [TraceEv.post submitUrl]}
                      match env.post s2.tick submitUrl payload with
                      | none => ({s3 with mgr := markSolved s3.mgr q.idx}, true)
                      | some (_status, pr) =>
                          let resp := post_answer_resp pr
                          let s4 : LoopState :=
                            {s3 with results := s3.results ++ [⟨q.url, payload, resp⟩]}
                          ({s4 with
                              mgr := handleResponse s4.mgr q resp (env.clock s4.tick),
                              tick := s4.tick + handleRespTicks resp}, true)

/-- State after the loop-head `while time.time() < global_deadline` reading:
the clock cursor advances and the comparison is recorded. -/

def checkedState (env : Env) (gd : Nat) (s : LoopState) : LoopState :=
  {s with
    tick := s.tick + 1
    trace := s.trace ++ [TraceEv.check (env.clock s.tick) (decide (env.clock s.tick < gd))]}

/-- Model of the `solve_quiz_url` while-loop: read the clock, record the
session-deadline comparison, and run the body while the deadline has not
elapsed; fuelled, since with a non-advancing clock the Python loop need not
terminate. -/

def solveLoop (env : Env) (email secret : String) (gd : Nat) : Nat → LoopState → LoopState
  | 0, s => s
  | fuel + 1, s =>
      if env.clock s.tick < gd then
        match solveStep env email secret (checkedState env gd s) with
        | (s2, true) => solveLoop env email secret gd fuel s2
        | (s2, false) => s2
      else checkedState env gd s

/-- Model of `solve_quiz_url`: fix the session deadline 170 seconds after
the first clock reading (`MAX_GLOBAL_SECONDS`), seed the manager with the
start URL, and run the loop; the returned state's `results` field is the
`{"results": results}` value the source returns. -/

def solve_quiz_url (env : Env) (start_url email secret : String) (fuel : Nat) : LoopState :=
  let gd := env.clock 0 + 170
  solveLoop env email secret gd fuel ⟨qmAdd [] (env.clock 1) (Json.str start_url), [], 2, []⟩

/-!
Model of `receive_request.py`: the helper functions on page markup and the
background chain follower `process_request`.  BeautifulSoup text extraction
(`extract_question_text`) and the regex/urljoin submit-URL discovery
(`find_submit_url_in_html`), which no claim touches internally, enter as
oracles; the completion-service call `call_aipipe_for_answer` is an external
collaborator whose overall outcome (an answer value, or an exception after
its internal retries) is an oracle as well.
-/

/-- Scan for the first match of the `receive_request.py` regex
`atob\(\s*["\x27]([^"\x27]+)["\x27]\s*\)`: the literal "atob(", optional
whitespace, an opening single or double quote, a non-empty run free of both
quote characters, a closing quote of either kind, optional whitespace and a
closing parenthesis. -/

def findAtobQuote : List Char → Option String
  | [] => none
  | c :: rest =>
      let here : Option String :=
        if listStartsWith (c :: rest) "atob(".toList then
          match ((c :: rest).drop 5).dropWhile pyWs with
          | q :: body =>
              if q == Char.ofNat 34 || q == Char.ofNat 39 then
                let run := body.takeWhile
                  (fun d => d != Char.ofNat 34 && d != Char.ofNat 39)
                if run.isEmpty then none
                else
                  match body.drop run.length with
                  | _q2 :: rest2 =>
                      match rest2.dropWhile pyWs with
                      | p :: _ => if p == Char.ofNat 41 then some (String.mk run) else none
                      | [] => none
                  | [] => none
              else none
          | [] => none
        else none
      match here with
      | some s => some s
      | none => findAtobQuote rest

/-- Model of `extract_base64_from_html`. -/

def extract_base64_from_html (html : String) : Option String :=
  findAtobQuote html.toList

/-- Model of `decode_base64_to_html`: base64-decode and decode the bytes as
UTF-8 with `errors="replace"`; any decoding exception yields `None`. -/

def decode_base64_to_html (b64 : String) : Option String :=
  (b64decodeBytes b64).map utf8DecodeReplace

/-- Model of `str.strip()`. -/

def pyStrip (s : String) : String :=
  String.mk (((s.toList.dropWhile pyWs).reverse.dropWhile pyWs).reverse)

/-- Page-selection chain of `process_request` (lines 202-204 of the source):
the decoded embedded document when an `atob` payload is present, decodes and
is truthy (non-empty); the raw page otherwise. -/

def pageOf (html : String) : String :=
  match extract_base64_from_html html with
  | some p =>
      match decode_base64_to_html p with
      | some d => if d != "" then d else html
      | none => html
  | none => html

/-- String prefix test (`str.startswith`). -/

def strStartsWith (s pre : String) : Bool := listStartsWith s.toList pre.toList

/-- Network/service events of a `process_request` run: the page GET, the
completion-service call, and the submission POST. -/

inductive RRTrace where
  | get (url : Json)
  | llm (question : String)
  | post (url : String)

/-- Oracle environment of a `process_request` run: the event-loop clock
stream, the page fetch (`none` is a GET exception — including the `TypeError`
a non-string URL raises inside `httpx`), the two BeautifulSoup/regex helpers,
the completion service (`none` is an exception after its internal retries)
and the judge's reaction to a POST (`none` is a transport exception). -/

structure RREnv where
  clock : Nat → Nat
  get : Nat → Json → Option String
  extractQ : String → String
  findSubmitR : String → Json → Option String
  llm : Nat → String → Option Json
  post : Nat → String → Payload → Option PostResult

/-- State of the chain follower: the current challenge URL (a JSON value,
since a follow-on URL is whatever the judge's `url` field held), the
`last_result` value, the clock cursor and the event trace. -/

structure RRState where
  url : Json
  last_result : Option Json
  tick : Nat
  trace : List RRTrace

/-- Model of the `while True` body of `process_request`: check the overall
deadline, fetch, de-obfuscate (falling back to the raw page on a missing or
falsy decode), extract the question, discover the submit URL, ask the
completion service, POST the answer, record the response and follow a fresh
truthy `url` field; every `break` of the source returns the state
accumulated so far, and a follow-on URL equal to the current one stops the
chain (the self-loop guard). -/

def rrLoop (env : RREnv) (email secret : String) (gd : Nat) : Nat → RRState → RRState
  | 0, s => s
  | fuel + 1, s =>
      let t := env.clock s.tick
      let s0 : RRState := {s with tick := s.tick + 1}
      if gd < t then s0
      else
        let s1 : RRState := {s0 with trace := s0.trace ++ [RRTrace.get s0.url]}
        match env.get s0.tick s0.url with
        | none => s1
        | some html =>
            let page : String := pageOf html
            let question := env.extractQ page
            if question == "" then s1
            else
              match env.findSubmitR page s1.url with
              | none => s1
              | some submitUrl =>
                  let s2 : RRState := {s1 with trace := s1.trace ++ [RRTrace.llm question]}
                  match env.llm s1.tick question with
                  | none => s2
                  | some answer =>
                      let payload : Payload := ⟨email, secret, s2.url, answer⟩
                      let s3 : RRState := {s2 with trace := s2.trace ++ [RRTrace.post submitUrl]}
                      match env.post s2.tick submitUrl payload with
                      | none => s3
                      | some (PostResult.text txt) =>
                          {s3 with last_result := some (Json.obj
                            [("final", Json.bool true),
                             ("raw_response", Json.str (pyStrip txt))])}
                      | some (PostResult.json j) =>
                          let s4 : RRState := {s3 with last_result := some j}
                          let nextUrl : Option Json :=
                            match j.get? "url" with
                            | some v => if v.truthy then some v else none
                            | none => none
                          match nextUrl with
                          | none => s4
                          | some nu =>
                              if nu == s4.url then s4
                              else rrLoop env email secret gd fuel {s4 with url := nu}

/-- Model of `process_request`: validate the start URL (a missing or
non-HTTP URL returns without any network traffic, `none` here), fix the
overall deadline 150 seconds after the first event-loop clock reading, and
run the chain from the start URL. -/

def process_request (env : RREnv) (start_url email secret : String) (fuel : Nat) :
    Option RRState :=
  if start_url == "" ||
      !(strStartsWith start_url "http://" || strStartsWith start_url "https://") then none
  else
    let gd := env.clock 0 + 150
    some (rrLoop env email secret gd fuel ⟨Json.str start_url, none, 1, []⟩)

/-- Three concrete windows for the C6 witness: two active with different
deadlines, one already solved. -/
def qWinA : Question := ⟨0, Json.str "http://a", 0, 300, false, Json.null, ⟨0, 1⟩⟩

/-- Second witness window, soonest-deadline active one. -/
def qWinB : Question := ⟨1, Json.str "http://b", 0, 200, false, Json.null, ⟨0, 1⟩⟩

/-- Third witness window, already solved. -/
def qWinC : Question := ⟨2, Json.str "http://c", 0, 250, true, Json.null, ⟨0, 1⟩⟩

/-- Witness environment for C6: the first clock reading is 100, the second
400, so the selected window (deadline 200) has expired by the recheck. -/
def envC6 : Env :=
  ⟨fun i => if i = 0 then 100 else 400,
   fun _ _ => some "page", fun _ _ => some "http://s/submit",
   fun _ => [], fun _ _ => none, fun _ _ _ => none⟩

/-- Witness state for C6. -/
def sC6 : LoopState := ⟨[qWinA, qWinB, qWinC], [], 0, []⟩

/-- Witness window for C1. -/
def qWin1 : Question := ⟨0, Json.str "http://q", 0, 180, false, Json.null, ⟨0, 1⟩⟩

/-- Witness response for C1: both `correct: true` and a follow-on URL. -/
def respC1 : Json := Json.obj [("correct", Json.bool true), ("url", Json.str "http://next")]

/-- Witness environment for C1: the page yields an answer through the regex
fallback handler and the judge replies with `respC1`. -/
def envC1 : Env :=
  ⟨fun _ => 0,
   fun _ _ => some "the answer is 7",
   fun _ _ => some "http://s/submit",
   fun _ => [], fun _ _ => none,
   fun _ _ _ => some (200, PostResult.json respC1)⟩

/-- Witness state for C1. -/
def sC1 : LoopState := ⟨[qWin1], [], 2, []⟩

/-- Counterexample environment for C3: the judge always answers with JSON
carrying neither `correct: true` nor a `url`. -/
def envC3 : Env :=
  ⟨fun _ => 10,
   fun _ _ => some "the answer is 7",
   fun _ _ => some "http://s/submit",
   fun _ => [], fun _ _ => none,
   fun _ _ _ => some (200, PostResult.json (Json.obj [("status", Json.str "wrong")]))⟩

/-- Witness environment for C4: the judge replies with the literal non-JSON
text "Quiz complete!". -/
def envC4 : RREnv :=
  ⟨fun _ => 0,
   fun _ _ => some "what is 2+2?",
   fun p => p,
   fun _ _ => some "http://s/submit",
   fun _ _ => some (Json.num ⟨4, 1⟩),
   fun _ _ _ => some (PostResult.text "Quiz complete!")⟩

/-- Witness state for C4. -/
def sC4 : RRState := ⟨Json.str "http://q", none, 1, []⟩

/-- Counterexample environment for C4: the judge answers every POST with the
non-JSON body "Quiz complete!". -/
def envC4m : Env :=
  ⟨fun _ => 10,
   fun _ _ => some "the answer is 7",
   fun _ _ => some "http://s/submit",
   fun _ => [], fun _ _ => none,
   fun _ _ _ => some (200, PostResult.text "Quiz complete!")⟩

/-- Witness environment for C2: the judge replies with JSON whose `url`
equals the URL just submitted. -/
def envC2r : RREnv :=
  ⟨fun _ => 0,
   fun _ _ => some "what is 2+2?",
   fun p => p,
   fun _ _ => some "http://s/submit",
   fun _ _ => some (Json.num ⟨4, 1⟩),
   fun _ _ _ => some (PostResult.json (Json.obj [("url", Json.str "http://q")]))⟩

/-- Counterexample environment for C2: the judge's response supplies the
very URL that was just submitted as the follow-on URL. -/
def envC2m : Env :=
  ⟨fun _ => 10,
   fun _ _ => some "the answer is 7",
   fun _ _ => some "http://s/submit",
   fun _ => [], fun _ _ => none,
   fun _ _ _ => some (200, PostResult.json (Json.obj [("url", Json.str "http://q")]))⟩

/-- Test for a network operation in the trace (page fetch or submission
POST). -/
def isNetOp : TraceEv → Bool
  | TraceEv.render _ => true
  | TraceEv.post _ => true
  | TraceEv.check _ _ => false

/-- Test for a passed session-deadline check. -/
def isPassingCheck : TraceEv → Bool
  | TraceEv.check _ true => true
  | _ => false

/-- Helper for `freshCheckBeforeEveryOp`, carrying the previous event. -/
def freshCheckAux : Option TraceEv → List TraceEv → Bool
  | _, [] => true
  | prev, e :: rest =>
      (if isNetOp e then
        (match prev with
         | some p => isPassingCheck p
         | none => false)
       else true) && freshCheckAux (some e) rest

/-- Formalisation of the C5 claim "the orchestrator checks the session
deadline before every blocking network operation": every network operation
in a run's trace is immediately preceded by a passed session-deadline
check. -/
def freshCheckBeforeEveryOp (tr : List TraceEv) : Bool := freshCheckAux none tr

/-- Counterexample environment for C5: the loop-head readings are 100 (well
inside the 170-second budget fixed at reading 0), but by the next observable
reading the clock stands at 500 — rendering and the handler work consumed
the whole budget inside a single iteration. -/
def envC5 : Env :=
  ⟨fun i => if i < 2 then 0 else if i < 5 then 100 else 500,
   fun _ _ => some "the answer is 7",
   fun _ _ => some "http://s/submit",
   fun _ => [], fun _ _ => none,
   fun _ _ _ => some (200, PostResult.json (Json.obj [("correct", Json.bool true)]))⟩

/-- Witness page for C8: mentions "sum" and "value" and embeds the base64
payload of a JSON answer (42) in a backtick-quoted `atob` call. -/
def htmlC8 : String := "Sum of value column: atob(\x60eyJhbnN3ZXIiOiA0Mn0=\x60)"

/-- Witness table parser for C8: the page's table offers a table-sum answer
of 7. -/
def tablesC8 : String → List Table := fun _ => [⟨["value"], [["7"]]⟩]

/-- Witness table for C10: a "value" column whose entries are all
non-numeric. -/
def tabC10 : Table := ⟨["name", "value"], [["a", "abc"], ["b", "--"]]⟩

/-- Witness table parser for C10. -/
def tablesC10 : String → List Table := fun _ => [tabC10]

/-- Witness page text for C10. -/
def htmlC10 : String := "What is the sum of the value column?"

/-!
Theorems.  Each claim of the specification audit gets one theorem (with a
witness instantiation when the theorem carries hypotheses); shared helper
lemmas precede them.
-/

/-- Characterisation of a successful `next_unsolved` call: the returned
window is an unsolved, unexpired member of the manager with minimal deadline
among such windows. -/

theorem next_unsolved_some (qs : List Question) (now : Nat) (q : Question)
    (h : next_unsolved qs now = some q) :
    q ∈ qs ∧ q.solved = false ∧ now < q.deadline ∧
      ∀ r ∈ qs, r.solved = false → now < r.deadline → q.deadline ≤ r.deadline := by
  unfold next_unsolved at h
  set active := qs.filter (fun q => !q.solved && decide (now < q.deadline)) with hact
  by_cases he : active.isEmpty
  · simp [he] at h
  · simp only [he, if_false, Bool.false_eq_true] at h
    have hperm := List.perm_insertionSort dlLE active
    have hsorted := List.sorted_insertionSort dlLE active
    cases hs : active.insertionSort dlLE with
    | nil => rw [hs] at h; simp at h
    | cons a rest =>
        rw [hs] at h
        simp only [List.head?_cons, Option.some.injEq] at h
        subst h
        have hqmem : a ∈ active := hperm.subset (by rw [hs]; exact List.mem_cons_self a rest)
        have hfilter := List.mem_filter.mp (hact ▸ hqmem)
        have hprops : a.solved = false ∧ now < a.deadline := by
          have := hfilter.2
          simp only [Bool.and_eq_true, Bool.not_eq_true', decide_eq_true_eq] at this
          exact this
        refine ⟨hfilter.1, hprops.1, hprops.2, ?_⟩
        intro r hr hrs hrd
        have hrmem : r ∈ active := by
          rw [hact]
          exact List.mem_filter.mpr ⟨hr, by simp [hrs, hrd]⟩
        have : r ∈ active.insertionSort dlLE := hperm.symm.subset hrmem
        rw [hs] at this
        rcases List.mem_cons.mp this with h1 | h2
        · rw [h1]
        · rw [hs] at hsorted
          exact List.rel_of_sorted_cons hsorted r h2

/-- Characterisation of an empty `next_unsolved` call: there is no window
both unsolved and unexpired. -/

theorem next_unsolved_none (qs : List Question) (now : Nat) :
    next_unsolved qs now = none ↔ ∀ q ∈ qs, q.solved = true ∨ q.deadline ≤ now := by
  unfold next_unsolved
  set active := qs.filter (fun q => !q.solved && decide (now < q.deadline)) with hact
  by_cases he : active.isEmpty
  · simp only [he, if_true, true_iff]
    have hnil : active = [] := List.isEmpty_iff.mp he
    intro q hq
    by_contra hcon
    push_neg at hcon
    have : q ∈ active := by
      rw [hact]
      refine List.mem_filter.mpr ⟨hq, ?_⟩
      simp only [Bool.and_eq_true, Bool.not_eq_true', decide_eq_true_eq]
      exact ⟨by simpa using hcon.1, hcon.2⟩
    rw [hnil] at this
    exact absurd this (List.not_mem_nil q)
  · simp only [he, if_false, Bool.false_eq_true, iff_false]
    have hne : active ≠ [] := fun hnil => he (by rw [hnil]; rfl)
    have : active.insertionSort dlLE ≠ [] := by
      intro hnil
      have hp := List.perm_insertionSort dlLE active
      rw [hnil] at hp
      exact hne (List.Perm.symm hp).eq_nil
    constructor
    · intro hh
      cases hs : active.insertionSort dlLE with
      | nil => exact absurd hs this
      | cons a rest => rw [hs] at hh; simp at hh
    · intro hall
      rcases List.exists_mem_of_ne_nil active hne with ⟨q, hq⟩
      have hfilter := List.mem_filter.mp (hact ▸ hq)
      have := hfilter.2
      simp only [Bool.and_eq_true, Bool.not_eq_true', decide_eq_true_eq] at this
      rcases hall q hfilter.1 with h1 | h1
      · rw [this.1] at h1; exact absurd h1 (by simp)
      · exact absurd h1 (Nat.not_le_of_lt this.2)

/-- An expired window selected by the manager is immediately marked solved:
when the fresh `now` reading is at or past the selected window's deadline,
the iteration only flips that window's flag, reads no page, posts nothing,
and continues. -/

theorem solveStep_expired (env : Env) (email secret : String) (s : LoopState) (q : Question)
    (hnext : next_unsolved s.mgr (env.clock s.tick) = some q)
    (hexp : q.deadline ≤ env.clock (s.tick + 1)) :
    solveStep env email secret s =
      ({s with mgr := markSolved s.mgr q.idx, tick := s.tick + 2}, true) := by
  unfold solveStep
  rw [hnext]
  simp only [if_pos hexp]

/-- C6: `QuestionWindowManager.next()` (`next_unsolved`) returns, among
windows that are unsolved and whose deadline has not yet passed, one with
the soonest deadline, or none when no such window exists; and a window
whose deadline has passed by the fresh `now` reading is immediately marked
solved and the iteration continues with no network I/O (no render, no post,
no trace growth). -/

theorem c6_next_selects_soonest_unexpired :
    (∀ (qs : List Question) (now : Nat) (q : Question), next_unsolved qs now = some q →
        q ∈ qs ∧ q.solved = false ∧ now < q.deadline ∧
          ∀ r ∈ qs, r.solved = false → now < r.deadline → q.deadline ≤ r.deadline) ∧
    (∀ (qs : List Question) (now : Nat),
        next_unsolved qs now = none ↔ ∀ q ∈ qs, q.solved = true ∨ q.deadline ≤ now) ∧
    (∀ (env : Env) (email secret : String) (s : LoopState) (q : Question),
        next_unsolved s.mgr (env.clock s.tick) = some q →
        q.deadline ≤ env.clock (s.tick + 1) →
        solveStep env email secret s =
          ({s with mgr := markSolved s.mgr q.idx, tick := s.tick + 2}, true)) :=
  ⟨next_unsolved_some, next_unsolved_none, solveStep_expired⟩

theorem c6_witness :
    (qWinB ∈ [qWinA, qWinB, qWinC] ∧ qWinB.solved = false ∧ 100 < qWinB.deadline ∧
      ∀ r ∈ [qWinA, qWinB, qWinC], r.solved = false → 100 < r.deadline →
        qWinB.deadline ≤ r.deadline) ∧
    solveStep envC6 "e@x" "sec" sC6 =
      ({sC6 with mgr := markSolved sC6.mgr qWinB.idx, tick := 2}, true) :=
  ⟨c6_next_selects_soonest_unexpired.1 [qWinA, qWinB, qWinC] 100 qWinB rfl,
   c6_next_selects_soonest_unexpired.2.2 envC6 "e@x" "sec" sC6 qWinB rfl (by decide)⟩

/-- Marking a window preserves the manager's length. -/

theorem markSolved_length (qs : List Question) (i : Nat) :
    (markSolved qs i).length = qs.length := by
  simp [markSolved]

/-- Marking a window can only turn `solved` flags on: a window solved at
position `i` stays solved there. -/

theorem solvedAt_markSolved {qs : List Question} {i j : Nat} {q : Question}
    (h : qs.get? i = some q) (hs : q.solved = true) :
    ∃ q', (markSolved qs j).get? i = some q' ∧ q'.solved = true := by
  unfold markSolved
  rw [List.get?_map, h]
  by_cases hij : q.idx = j <;> simp [hij, hs]

/-- Appending windows preserves the windows already present. -/

theorem solvedAt_append {qs l : List Question} {i : Nat} {q : Question}
    (h : qs.get? i = some q) : (qs ++ l).get? i = some q := by
  have hlt : i < qs.length := by
    by_contra hge
    rw [List.get?_eq_none.mpr (Nat.le_of_not_lt hge)] at h
    exact Option.noConfusion h
  rw [List.get?_append hlt]
  exact h

/-- The response-classification step never unsolves a window: a window
solved before `handleResponse` is still solved at its position after. -/

theorem solvedAt_handleResponse {mgr : List Question} {q2 : Question} {resp : Json}
    {t i : Nat} {q : Question} (h : mgr.get? i = some q) (hs : q.solved = true) :
    ∃ q', (handleResponse mgr q2 resp t).get? i = some q' ∧ q'.solved = true := by
  have base : ∃ q',
      (if jisTrue (resp.get? "correct") then markSolved mgr q2.idx else mgr).get? i = some q' ∧
        q'.solved = true := by
    split
    · exact solvedAt_markSolved h hs
    · exact ⟨q, h, hs⟩
  rcases base with ⟨q', hq', hqs'⟩
  unfold handleResponse qmAdd
  dsimp only
  cases hg : resp.get? "url" with
  | none => exact ⟨q', hq', hqs'⟩
  | some v =>
      dsimp only
      split
      · exact ⟨q', solvedAt_append hq', hqs'⟩
      · exact ⟨q', hq', hqs'⟩

/-- One loop iteration never unsolves a window. -/

theorem solveStep_solved_mono (env : Env) (email secret : String) (s : LoopState)
    (i : Nat) (q : Question) (h : s.mgr.get? i = some q) (hs : q.solved = true) :
    ∃ q', (solveStep env email secret s).1.mgr.get? i = some q' ∧ q'.solved = true := by
  unfold solveStep
  split
  · exact ⟨q, h, hs⟩
  · dsimp only
    split
    · exact solvedAt_markSolved h hs
    · split
      · exact solvedAt_markSolved h hs
      · split
        · exact solvedAt_markSolved h hs
        · split
          · exact solvedAt_markSolved h hs
          · split
            · exact solvedAt_markSolved h hs
            · split
              · exact solvedAt_markSolved h hs
              · exact solvedAt_handleResponse h hs

/-- The whole solver loop never unsolves a window. -/

theorem solveLoop_solved_mono (env : Env) (email secret : String) (gd : Nat) :
    ∀ (fuel : Nat) (s : LoopState) (i : Nat) (q : Question),
      s.mgr.get? i = some q → q.solved = true →
      ∃ q', (solveLoop env email secret gd fuel s).mgr.get? i = some q' ∧ q'.solved = true := by
  intro fuel
  induction fuel with
  | zero => intro s i q h hs; exact ⟨q, h, hs⟩
  | succ f ih =>
      intro s i q h hs
      unfold solveLoop
      split
      · rcases hstep_eq : solveStep env email secret (checkedState env gd s) with ⟨s2, b⟩
        have hstep := solveStep_solved_mono env email secret (checkedState env gd s) i q h hs
        rw [hstep_eq] at hstep
        rcases hstep with ⟨q', hq', hqs'⟩
        cases b
        · exact ⟨q', hq', hqs'⟩
        · exact ih s2 i q' hq' hqs'
      · exact ⟨q, h, hs⟩

/-- C7: a window's `solved` flag is monotone — once true it stays true at
its position through any number of loop iterations (so the false→true
transition happens at most once and never reverts) — and a solved window is
never selected for processing again (`next_unsolved` only ever returns
unsolved windows; the loop processes only what `next_unsolved` returns). -/

theorem c7_solved_monotone_and_inert :
    (∀ (env : Env) (email secret : String) (gd fuel : Nat) (s : LoopState) (i : Nat)
        (q : Question), s.mgr.get? i = some q → q.solved = true →
        ∃ q', (solveLoop env email secret gd fuel s).mgr.get? i = some q' ∧
          q'.solved = true) ∧
    (∀ (qs : List Question) (now : Nat) (r : Question),
        next_unsolved qs now = some r → r.solved = false) :=
  ⟨fun env email secret gd fuel s i q h hs =>
      solveLoop_solved_mono env email secret gd fuel s i q h hs,
   fun qs now r h => (next_unsolved_some qs now r h).2.1⟩

theorem c7_witness :
    (∃ q', (solveLoop envC6 "e@x" "sec" 170 2 sC6).mgr.get? 2 = some q' ∧
        q'.solved = true) ∧
      qWinB.solved = false :=
  ⟨c7_solved_monotone_and_inert.1 envC6 "e@x" "sec" 170 2 sC6 2 qWinC rfl rfl,
   c7_solved_monotone_and_inert.2 [qWinA, qWinB, qWinC] 100 qWinB rfl⟩

/-- Response classification with a non-empty follow-on URL string: whatever
the `correct` field holds, the manager gains exactly one fresh window for
that URL — unsolved, opened at the `manager.add` clock reading, with a
3-minute deadline — after the current window is marked solved when and only
when `correct == True`. -/

theorem handleResponse_adds (mgr : List Question) (q : Question) (resp : Json) (t : Nat)
    (u : String) (hu : resp.get? "url" = some (Json.str u)) (hne : u ≠ "") :
    handleResponse mgr q resp t =
      (if jisTrue (resp.get? "correct") then markSolved mgr q.idx else mgr) ++
        [⟨mgr.length, Json.str u, t, t + 180, false, Json.null, ⟨0, 1⟩⟩] := by
  unfold handleResponse qmAdd
  dsimp only
  rw [hu]
  have htr : (Json.str u).truthy = true := by simpa [Json.truthy] using hne
  simp only [htr, if_true]
  have hlen : (if jisTrue (resp.get? "correct") then markSolved mgr q.idx else mgr).length =
      mgr.length := by
    split
    · exact markSolved_length mgr q.idx
    · rfl
  rw [hlen]

/-- C1: when the judge's response to a submission is JSON whose `url` field
holds a non-empty string, the engine always appends a fresh window for that
URL (unsolved, with a new 3-minute deadline) and continues the chain — the
iteration returns "keep looping" — regardless of the `correct` field, also
when the response carries `correct: true` (which then additionally marks the
current window solved). -/

theorem c1_url_field_always_adds_window (env : Env) (email secret : String)
    (s : LoopState) (q : Question) (html su : String) (out : HandlerOut) (st : Nat)
    (resp : Json) (u : String)
    (hnext : next_unsolved s.mgr (env.clock s.tick) = some q)
    (hlive : env.clock (s.tick + 1) < q.deadline)
    (hrender : env.render (s.tick + 2) q.url = some html)
    (hfind : env.findSubmit html q.url = some su)
    (hrun : runFirst (HANDLERS env.tablesOf env.downloadH) html q.url = some out)
    (hans : (out.answer == Json.null) = false)
    (hpost : env.post (s.tick + 2) su ⟨email, secret, q.url, out.answer⟩ =
      some (st, PostResult.json resp))
    (hurl : resp.get? "url" = some (Json.str u))
    (hne : u ≠ "") :
    (solveStep env email secret s).2 = true ∧
      (solveStep env email secret s).1.mgr =
        (if jisTrue (resp.get? "correct") then markSolved s.mgr q.idx else s.mgr) ++
          [⟨s.mgr.length, Json.str u, env.clock (s.tick + 2), env.clock (s.tick + 2) + 180,
            false, Json.null, ⟨0, 1⟩⟩] := by
  unfold solveStep
  rw [hnext]
  dsimp only
  rw [if_neg (Nat.not_le_of_lt hlive)]
  rw [hrender]
  dsimp only
  rw [hfind]
  dsimp only
  rw [hrun]
  dsimp only
  simp only [hans, Bool.false_eq_true, if_false]
  rw [hpost]
  dsimp only [post_answer_resp]
  exact ⟨rfl, handleResponse_adds s.mgr q resp (env.clock (s.tick + 2)) u hurl hne⟩

theorem c1_witness :
    (solveStep envC1 "e@x" "sec" sC1).2 = true ∧
      (solveStep envC1 "e@x" "sec" sC1).1.mgr =
        (if jisTrue (respC1.get? "correct") then markSolved sC1.mgr qWin1.idx else sC1.mgr) ++
          [⟨sC1.mgr.length, Json.str "http://next", envC1.clock 4, envC1.clock 4 + 180,
            false, Json.null, ⟨0, 1⟩⟩] :=
  c1_url_field_always_adds_window envC1 "e@x" "sec" sC1 qWin1 "the answer is 7"
    "http://s/submit" ⟨Json.num ⟨7, 1⟩, some ⟨4, 10⟩⟩ 200 respC1 "http://next"
    rfl (by decide) rfl rfl rfl rfl rfl rfl (by decide)

/-- C3 amendment: a JSON submission response with neither `correct == true`
nor a truthy `url` field leaves the manager completely unchanged — in
particular the current window is NOT marked solved, so (while its own
deadline and the session deadline last) it remains selectable and will be
resubmitted. -/

theorem c3_neither_leaves_manager_unchanged (mgr : List Question) (q : Question)
    (resp : Json) (t : Nat)
    (hc : jisTrue (resp.get? "correct") = false)
    (hu : jtruthy (resp.get? "url") = false) :
    handleResponse mgr q resp t = mgr := by
  unfold handleResponse
  dsimp only
  simp only [hc, Bool.false_eq_true, if_false]
  cases hg : resp.get? "url" with
  | none => rfl
  | some v =>
      have hv : v.truthy = false := by rw [hg] at hu; simpa [jtruthy] using hu
      simp only [hv, Bool.false_eq_true, if_false]

theorem c3_witness :
    handleResponse [qWin1] qWin1 (Json.obj [("status", Json.str "wrong")]) 9 = [qWin1] :=
  c3_neither_leaves_manager_unchanged [qWin1] qWin1
    (Json.obj [("status", Json.str "wrong")]) 9 rfl rfl

/-- C3 counterexample: after a submission answered with JSON containing
neither `correct == true` nor a `url`, the window is NOT marked solved
(contradicting "the current window is marked solved") and the very next
iteration submits the same window's URL again (contradicting "never
resubmitted"): two history entries for the same question accumulate. -/

theorem c3_counterexample :
    (solve_quiz_url envC3 "http://q" "e@x" "sec" 2).mgr.map Question.solved = [false] ∧
      (solve_quiz_url envC3 "http://q" "e@x" "sec" 2).results.map
          SubmissionRecord.question = [Json.str "http://q", Json.str "http://q"] :=
  ⟨rfl, rfl⟩

/-- C4 amendment, `receive_request` side: a non-JSON submission-response
body ends the chain — the loop records `{"final": True, "raw_response":
<stripped text>}` as the last result and stops, performing no further
network traffic no matter how much fuel (time) remains. -/

theorem c4_rr_nonjson_terminal (env : RREnv) (email secret : String) (gd : Nat)
    (s : RRState) (html su question : String) (answer : Json) (txt : String)
    (fuel : Nat)
    (hclk : env.clock s.tick ≤ gd)
    (hget : env.get (s.tick + 1) s.url = some html)
    (hq : env.extractQ (pageOf html) = question)
    (hqne : (question == "") = false)
    (hfind : env.findSubmitR (pageOf html) s.url = some su)
    (hllm : env.llm (s.tick + 1) question = some answer)
    (hpost : env.post (s.tick + 1) su ⟨email, secret, s.url, answer⟩ =
      some (PostResult.text txt)) :
    rrLoop env email secret gd (fuel + 1) s =
      ⟨s.url,
       some (Json.obj [("final", Json.bool true), ("raw_response", Json.str (pyStrip txt))]),
       s.tick + 1,
       s.trace ++ [RRTrace.get s.url, RRTrace.llm question, RRTrace.post su]⟩ := by
  unfold rrLoop
  rw [if_neg (Nat.not_lt.mpr hclk)]
  dsimp only
  rw [hget]
  dsimp only
  rw [hq]
  simp only [hqne, Bool.false_eq_true, if_false]
  rw [hfind]
  dsimp only
  rw [hllm]
  dsimp only
  rw [hpost]
  simp [List.append_assoc]

theorem c4_witness :
    rrLoop envC4 "e@x" "sec" 150 8 sC4 =
      ⟨Json.str "http://q",
       some (Json.obj [("final", Json.bool true),
         ("raw_response", Json.str (pyStrip "Quiz complete!"))]),
       2, [RRTrace.get (Json.str "http://q"), RRTrace.llm "what is 2+2?",
         RRTrace.post "http://s/submit"]⟩ :=
  c4_rr_nonjson_terminal envC4 "e@x" "sec" 150 sC4 "what is 2+2?" "http://s/submit"
    "what is 2+2?" (Json.num ⟨4, 1⟩) "Quiz complete!" 7 (by decide) rfl rfl (by decide)
    rfl rfl rfl

/-- C4 counterexample, `main.py` side: the non-JSON body is wrapped as
`{"text": ...}`, which matches neither classification branch, so the window
is NOT marked solved and the next iteration resubmits the same window — the
claim's "window marked solved, chain ends without further resubmission"
fails on this engine. -/

theorem c4_counterexample :
    (solve_quiz_url envC4m "http://q" "e@x" "sec" 2).mgr.map Question.solved = [false] ∧
      (solve_quiz_url envC4m "http://q" "e@x" "sec" 2).results.map
          SubmissionRecord.response =
        [Json.obj [("text", Json.str "Quiz complete!")],
         Json.obj [("text", Json.str "Quiz complete!")]] :=
  ⟨rfl, rfl⟩

/-- C2 amendment, `receive_request` side: when the follow-on URL in the
JSON submission response is equal (Python `==`) to the URL just submitted,
the chain follower stops — the response is recorded as the last result,
no new fetch of that URL happens, and the outcome is independent of the
remaining fuel (the self-loop guard). -/

theorem c2_rr_loop_guard (env : RREnv) (email secret : String) (gd : Nat)
    (s : RRState) (html su question : String) (answer j nu : Json)
    (fuel : Nat)
    (hclk : env.clock s.tick ≤ gd)
    (hget : env.get (s.tick + 1) s.url = some html)
    (hq : env.extractQ (pageOf html) = question)
    (hqne : (question == "") = false)
    (hfind : env.findSubmitR (pageOf html) s.url = some su)
    (hllm : env.llm (s.tick + 1) question = some answer)
    (hpost : env.post (s.tick + 1) su ⟨email, secret, s.url, answer⟩ =
      some (PostResult.json j))
    (hurl : j.get? "url" = some nu)
    (htr : nu.truthy = true)
    (hguard : (nu == s.url) = true) :
    rrLoop env email secret gd (fuel + 1) s =
      ⟨s.url, some j, s.tick + 1,
       s.trace ++ [RRTrace.get s.url, RRTrace.llm question, RRTrace.post su]⟩ := by
  unfold rrLoop
  rw [if_neg (Nat.not_lt.mpr hclk)]
  dsimp only
  rw [hget]
  dsimp only
  rw [hq]
  simp only [hqne, Bool.false_eq_true, if_false]
  rw [hfind]
  dsimp only
  rw [hllm]
  dsimp only
  rw [hpost]
  dsimp only
  rw [hurl]
  simp only [htr, if_true]
  simp only [hguard, if_true]
  simp [List.append_assoc]

theorem c2_witness :
    rrLoop envC2r "e@x" "sec" 150 8 ⟨Json.str "http://q", none, 1, []⟩ =
      ⟨Json.str "http://q", some (Json.obj [("url", Json.str "http://q")]), 2,
       [RRTrace.get (Json.str "http://q"), RRTrace.llm "what is 2+2?",
        RRTrace.post "http://s/submit"]⟩ :=
  c2_rr_loop_guard envC2r "e@x" "sec" 150 ⟨Json.str "http://q", none, 1, []⟩
    "what is 2+2?" "http://s/submit" "what is 2+2?" (Json.num ⟨4, 1⟩)
    (Json.obj [("url", Json.str "http://q")]) (Json.str "http://q") 7
    (by decide) rfl rfl (by decide) rfl rfl rfl rfl (by decide) (by decide)

/-- C2 counterexample, `main.py` side: a follow-on URL identical to the URL
just submitted is NOT treated as terminal — the window engine has no
self-loop guard, re-adds the same URL as a fresh window on every response,
and keeps fetching it: after two iterations three windows exist for the one
URL, none solved; the claim's "stops and never creates a new window for
that URL" fails on this engine. -/

theorem c2_counterexample :
    (solve_quiz_url envC2m "http://q" "e@x" "sec" 2).mgr.map Question.url =
        [Json.str "http://q", Json.str "http://q", Json.str "http://q"] ∧
      (solve_quiz_url envC2m "http://q" "e@x" "sec" 2).mgr.map Question.solved =
        [false, false, false] :=
  ⟨rfl, rfl⟩

/-- C5 counterexample: in this run the submission POST is immediately
preceded by the page fetch, not by any session-deadline check — the deadline
is checked once per iteration, not before every blocking operation — and the
next clock reading (500) shows the 170-second ceiling long elapsed when the
POST went out. -/

theorem c5_counterexample :
    freshCheckBeforeEveryOp (solve_quiz_url envC5 "http://q" "e@x" "sec" 3).trace = false ∧
      (solve_quiz_url envC5 "http://q" "e@x" "sec" 3).trace =
        [TraceEv.check 100 true, TraceEv.render (Json.str "http://q"),
         TraceEv.post "http://s/submit", TraceEv.check 500 false] :=
  ⟨rfl, rfl⟩

/-- C5 amendment: the session deadline is checked once per loop iteration,
before any network I/O of that iteration; whenever the loop-head reading
shows the 170-second ceiling elapsed, the loop initiates no further network
I/O — only the failed check is recorded — and returns with the submission
history exactly as accumulated. -/

theorem c5_deadline_is_per_iteration_ceiling (env : Env) (email secret : String)
    (gd fuel : Nat) (s : LoopState)
    (h : gd ≤ env.clock s.tick) :
    solveLoop env email secret gd (fuel + 1) s = checkedState env gd s ∧
      (checkedState env gd s).results = s.results ∧
      (checkedState env gd s).trace =
        s.trace ++ [TraceEv.check (env.clock s.tick) false] := by
  refine ⟨?_, rfl, ?_⟩
  · unfold solveLoop
    rw [if_neg (Nat.not_lt.mpr h)]
  · unfold checkedState
    dsimp only
    rw [decide_eq_false (Nat.not_lt.mpr h)]

theorem c5_witness :
    solveLoop envC3 "e@x" "sec" 5 1 sC1 = checkedState envC3 5 sC1 ∧
      (checkedState envC3 5 sC1).results = sC1.results ∧
      (checkedState envC3 5 sC1).trace = sC1.trace ++ [TraceEv.check 10 false] :=
  c5_deadline_is_per_iteration_ceiling envC3 "e@x" "sec" 5 0 sC1 (by decide)

/-- Whenever the embedded-answer handler produces a result, its confidence
is 0.99 (the handler constructs no other output). -/

theorem base64_json_handler_conf {html : String} {url : Json} {out : HandlerOut}
    (h : base64_json_handler html url = some out) : out.confidence = some ⟨99, 100⟩ := by
  unfold base64_json_handler at h
  split at h
  · exact absurd h (by simp)
  · split at h
    · exact absurd h (by simp)
    · dsimp only at h
      split at h
      · exact absurd h (by simp)
      · split at h
        · split at h
          · cases h
            rfl
          · exact absurd h (by simp)
        · exact absurd h (by simp)

/-- C8: the handler chain runs in its fixed registration order and the first
handler returning a result short-circuits the rest: on any page where the
embedded base64-JSON handler produces an answer, the chain's result is
exactly that answer at confidence 0.99, for EVERY behaviour of the table
parser and download handler — in particular also when the table-sum handler
would produce a result of its own (`h2`), which is never used. -/

theorem c8_first_success_short_circuits (tablesOf : String → List Table)
    (downloadH : Handler) (html : String) (url : Json) (out tout : HandlerOut)
    (h1 : base64_json_handler html url = some out)
    (h2 : html_table_handler tablesOf html url = some tout) :
    runFirst (HANDLERS tablesOf downloadH) html url = some out ∧
      out.confidence = some ⟨99, 100⟩ := by
  constructor
  · unfold HANDLERS runFirst
    rw [h1]
  · exact base64_json_handler_conf h1

theorem c8_witness :
    runFirst (HANDLERS tablesC8 (fun _ _ => none)) htmlC8 (Json.str "http://q") =
        some ⟨Json.num ⟨42, 1⟩, some ⟨99, 100⟩⟩ ∧
      html_table_handler tablesC8 htmlC8 (Json.str "http://q") =
        some ⟨Json.num ⟨7, 1⟩, some ⟨92, 100⟩⟩ :=
  ⟨(c8_first_success_short_circuits tablesC8 (fun _ _ => none) htmlC8 (Json.str "http://q")
      ⟨Json.num ⟨42, 1⟩, some ⟨99, 100⟩⟩ ⟨Json.num ⟨7, 1⟩, some ⟨92, 100⟩⟩ rfl rfl).1,
   rfl⟩

/-- C10: when the page's first table has a column named exactly "value" none
of whose entries coerce to a number, `parse_html_table_sum` returns the
all-NaN sum 0.0 (it does not fall through to another column and does not
report "no result"), and the table-sum handler therefore returns answer 0.0
at confidence 0.92. -/

theorem c10_all_nan_value_column_sums_to_zero (tablesOf : String → List Table)
    (html : String) (t : Table) (rest : List Table) (i : Nat) (url : Json)
    (htab : tablesOf html = t :: rest)
    (hcol : colIndex t "value" = some i)
    (hnan : ∀ cell ∈ columnAt t i, toNumericCell cell = none)
    (hsum : strHasSub (asciiLower html) "sum" = true)
    (hval : strHasSub (asciiLower html) "value" = true) :
    parse_html_table_sum tablesOf html "value" = some ⟨0, 1⟩ ∧
      (parse_html_table_sum tablesOf html "value").map Frac.toRat = some 0 ∧
      html_table_handler tablesOf html url = some ⟨Json.num ⟨0, 1⟩, some ⟨92, 100⟩⟩ := by
  have hfm : (columnAt t i).filterMap toNumericCell = [] := List.filterMap_eq_nil.mpr hnan
  have hsc : sumCol (columnAt t i) = ⟨0, 1⟩ := by
    unfold sumCol
    rw [hfm]
    rfl
  have hp : parse_html_table_sum tablesOf html "value" = some ⟨0, 1⟩ := by
    unfold parse_html_table_sum
    rw [htab]
    dsimp only [List.head?]
    rw [hcol]
    dsimp only
    rw [hsc]
  refine ⟨hp, ?_, ?_⟩
  · rw [hp]
    simp [Frac.toRat]
  · unfold html_table_handler
    simp only [hsum, hval, Bool.and_self, if_true]
    rw [hp]

theorem c10_witness :
    parse_html_table_sum tablesC10 htmlC10 "value" = some ⟨0, 1⟩ ∧
      (parse_html_table_sum tablesC10 htmlC10 "value").map Frac.toRat = some 0 ∧
      html_table_handler tablesC10 htmlC10 (Json.str "http://q") =
        some ⟨Json.num ⟨0, 1⟩, some ⟨92, 100⟩⟩ :=
  c10_all_nan_value_column_sums_to_zero tablesC10 htmlC10 tabC10 [] 1 (Json.str "http://q")
    rfl rfl (by decide) rfl rfl

/-- Alphabet fact: decoding inverts encoding on every 6-bit value. -/

theorem b64val_b64chr : ∀ v : Nat, v < 64 → b64val (b64chr v) = some v := by decide

/-- Alphabet fact: no data character is the padding character. -/

theorem b64chr_ne_pad : ∀ v : Nat, v < 64 → (b64chr v == padChar) = false := by decide

/-- Alphabet fact: every data character is ASCII. -/

theorem b64chr_ascii : ∀ v : Nat, v < 64 → (b64chr v).toNat < 128 := by decide

/-- Decoder step: a data character lands in an empty quad. -/

theorem a2bAux_step0 {c : Char} {v : Nat} (rest : List Char) (p : Nat)
    (hnp : (c == padChar) = false) (hv : b64val c = some v) :
    a2bAux (c :: rest) [] p = a2bAux rest [v] p := by
  have hne : c ≠ padChar := by simpa using hnp
  conv_lhs => unfold a2bAux
  simp [hne, hv]

/-- Decoder step: a data character lands in a 1-quad. -/

theorem a2bAux_step1 {c : Char} {v : Nat} (v0 : Nat) (rest : List Char) (p : Nat)
    (hnp : (c == padChar) = false) (hv : b64val c = some v) :
    a2bAux (c :: rest) [v0] p = a2bAux rest [v0, v] p := by
  have hne : c ≠ padChar := by simpa using hnp
  conv_lhs => unfold a2bAux
  simp [hne, hv]

/-- Decoder step: a data character lands in a 2-quad. -/

theorem a2bAux_step2 {c : Char} {v : Nat} (v0 v1 : Nat) (rest : List Char) (p : Nat)
    (hnp : (c == padChar) = false) (hv : b64val c = some v) :
    a2bAux (c :: rest) [v0, v1] p = a2bAux rest [v0, v1, v] p := by
  have hne : c ≠ padChar := by simpa using hnp
  conv_lhs => unfold a2bAux
  simp [hne, hv]

/-- Decoder step: a data character completes a quad and emits three bytes. -/

theorem a2bAux_step3 {c : Char} {v : Nat} (v0 v1 v2 : Nat) (rest : List Char) (p : Nat)
    (hnp : (c == padChar) = false) (hv : b64val c = some v) :
    a2bAux (c :: rest) [v0, v1, v2] p =
      (a2bAux rest [] p).map (fun bs => quadBytes v0 v1 v2 v ++ bs) := by
  have hne : c ≠ padChar := by simpa using hnp
  conv_lhs => unfold a2bAux
  simp [hne, hv]

/-- Decoder step: the first padding character after two data characters only
counts the pad. -/

theorem a2bAux_pad2a (rest : List Char) (v0 v1 : Nat) :
    a2bAux (padChar :: rest) [v0, v1] 0 = a2bAux rest [v0, v1] 1 := by
  conv_lhs => unfold a2bAux
  simp

/-- Decoder step: the second padding character after two data characters
finishes the quad and stops. -/

theorem a2bAux_pad2b (rest : List Char) (v0 v1 : Nat) :
    a2bAux (padChar :: rest) [v0, v1] 1 = some (finishQuad [v0, v1]) := by
  conv_lhs => unfold a2bAux
  simp

/-- Decoder step: a padding character after three data characters finishes
the quad and stops. -/

theorem a2bAux_pad3 (rest : List Char) (v0 v1 v2 : Nat) :
    a2bAux (padChar :: rest) [v0, v1, v2] 0 = some (finishQuad [v0, v1, v2]) := by
  conv_lhs => unfold a2bAux
  simp

/-- The lenient base64 decoder inverts the standard encoder on byte
sequences. -/

theorem a2b_encode : ∀ (bs : List Nat), (∀ b ∈ bs, b < 256) →
    a2bAux (b64encodeBytes bs) [] 0 = some bs
  | [], _ => rfl
  | [b], h => by
      have hb : b < 256 := h b (by simp)
      have h0 : b / 4 < 64 := by omega
      have h1 : b % 4 * 16 < 64 := by omega
      show a2bAux (b64chr (b / 4) :: b64chr (b % 4 * 16) :: padChar :: [padChar]) [] 0 =
        some [b]
      rw [a2bAux_step0 _ _ (b64chr_ne_pad _ h0) (b64val_b64chr _ h0),
        a2bAux_step1 _ _ _ (b64chr_ne_pad _ h1) (b64val_b64chr _ h1),
        a2bAux_pad2a, a2bAux_pad2b]
      simp only [finishQuad, Option.some.injEq, List.cons.injEq, and_true]
      omega
  | [b, c], h => by
      have hb : b < 256 := h b (by simp)
      have hc : c < 256 := h c (by simp)
      have h0 : b / 4 < 64 := by omega
      have h1 : b % 4 * 16 + c / 16 < 64 := by omega
      have h2 : c % 16 * 4 < 64 := by omega
      show a2bAux
        (b64chr (b / 4) :: b64chr (b % 4 * 16 + c / 16) :: b64chr (c % 16 * 4) :: [padChar])
        [] 0 = some [b, c]
      rw [a2bAux_step0 _ _ (b64chr_ne_pad _ h0) (b64val_b64chr _ h0),
        a2bAux_step1 _ _ _ (b64chr_ne_pad _ h1) (b64val_b64chr _ h1),
        a2bAux_step2 _ _ _ _ (b64chr_ne_pad _ h2) (b64val_b64chr _ h2),
        a2bAux_pad3]
      simp only [finishQuad, Option.some.injEq, List.cons.injEq, and_true]
      constructor <;> omega
  | b :: c :: d :: rest, h => by
      have hb : b < 256 := h b (by simp)
      have hc : c < 256 := h c (by simp)
      have hd : d < 256 := h d (by simp)
      have h0 : b / 4 < 64 := by omega
      have h1 : b % 4 * 16 + c / 16 < 64 := by omega
      have h2 : c % 16 * 4 + d / 64 < 64 := by omega
      have h3 : d % 64 < 64 := by omega
      have ih := a2b_encode rest (fun x hx => h x (by simp [hx]))
      show a2bAux
        (b64chr (b / 4) :: b64chr (b % 4 * 16 + c / 16) :: b64chr (c % 16 * 4 + d / 64) ::
          b64chr (d % 64) :: b64encodeBytes rest) [] 0 = some (b :: c :: d :: rest)
      rw [a2bAux_step0 _ _ (b64chr_ne_pad _ h0) (b64val_b64chr _ h0),
        a2bAux_step1 _ _ _ (b64chr_ne_pad _ h1) (b64val_b64chr _ h1),
        a2bAux_step2 _ _ _ _ (b64chr_ne_pad _ h2) (b64val_b64chr _ h2),
        a2bAux_step3 _ _ _ _ _ (b64chr_ne_pad _ h3) (b64val_b64chr _ h3),
        ih]
      simp only [Option.map_some', Option.some.injEq, quadBytes, List.cons_append,
        List.nil_append, List.cons.injEq]
      exact ⟨by omega, by omega, by omega, trivial⟩

/-- Every character the encoder emits is ASCII, so the decoder's
ASCII-encoding step accepts encoded payloads. -/

theorem b64encode_ascii : ∀ (bs : List Nat), (∀ b ∈ bs, b < 256) →
    ∀ ch ∈ b64encodeBytes bs, ch.toNat < 128
  | [], _ => by simp [b64encodeBytes]
  | [b], h => by
      have hb : b < 256 := h b (by simp)
      intro ch hch
      simp only [b64encodeBytes, List.mem_cons, List.not_mem_nil, or_false] at hch
      rcases hch with h1 | h1 | h1 | h1 <;> subst h1
      · exact b64chr_ascii _ (by omega)
      · exact b64chr_ascii _ (by omega)
      · decide
      · decide
  | [b, c], h => by
      have hb : b < 256 := h b (by simp)
      have hc : c < 256 := h c (by simp)
      intro ch hch
      simp only [b64encodeBytes, List.mem_cons, List.not_mem_nil, or_false] at hch
      rcases hch with h1 | h1 | h1 | h1 <;> subst h1
      · exact b64chr_ascii _ (by omega)
      · exact b64chr_ascii _ (by omega)
      · exact b64chr_ascii _ (by omega)
      · decide
  | b :: c :: d :: rest, h => by
      have hb : b < 256 := h b (by simp)
      have hc : c < 256 := h c (by simp)
      have hd : d < 256 := h d (by simp)
      intro ch hch
      simp only [b64encodeBytes, List.mem_cons] at hch
      rcases hch with h1 | h1 | h1 | h1 | h1
      · subst h1; exact b64chr_ascii _ (by omega)
      · subst h1; exact b64chr_ascii _ (by omega)
      · subst h1; exact b64chr_ascii _ (by omega)
      · subst h1; exact b64chr_ascii _ (by omega)
      · exact b64encode_ascii rest (fun x hx => h x (by simp [hx])) ch h1

/-- Model of `base64.b64decode` inverts the standard encoder on byte
sequences: canonical payloads decode to exactly the bytes they encode. -/

theorem b64decode_b64encode (bs : List Nat) (h : ∀ b ∈ bs, b < 256) :
    b64decodeBytes (b64encodeStr bs) = some bs := by
  unfold b64decodeBytes b64encodeStr
  change (if ((b64encodeBytes bs).all fun c => decide (c.toNat < 128)) = true then
    a2bAux (b64encodeBytes bs) [] 0 else none) = some bs
  rw [if_pos (List.all_eq_true.mpr
    (fun ch hch => decide_eq_true (b64encode_ascii bs h ch hch)))]
  exact a2b_encode bs h

/-- Code-point range of every character, from `Char`'s validity invariant:
below the surrogate block or above it and below 0x110000. -/

theorem char_range (c : Char) :
    c.toNat < 55296 ∨ (57343 < c.toNat ∧ c.toNat < 1114112) := by
  have h := c.valid
  unfold UInt32.isValidChar at h
  unfold Nat.isValidChar at h
  exact h

/-- The UTF-8 single-scalar decoder inverts the single-character encoder,
leaving trailing bytes untouched. -/

theorem utf8DecodeOne_encodeChar (c : Char) (rest : List Nat) :
    utf8DecodeOne (utf8EncodeChar c ++ rest) = some (c.toNat, rest) := by
  have hval := char_range c
  unfold utf8EncodeChar
  by_cases h1 : c.toNat < 128
  · simp only [if_pos h1, List.cons_append, List.nil_append]
    unfold utf8DecodeOne
    dsimp only
    rw [if_pos h1]
  · by_cases h2 : c.toNat < 2048
    · simp only [if_neg h1, if_pos h2, List.cons_append, List.nil_append]
      unfold utf8DecodeOne
      dsimp only
      rw [if_neg (by omega)]
      rw [if_pos (by simp only [Bool.and_eq_true, decide_eq_true_eq]; omega)]
      rw [if_pos (by simp only [isCont, Bool.and_eq_true, decide_eq_true_eq]; omega)]
      simp only [Option.some.injEq, Prod.mk.injEq]
      exact ⟨by omega, trivial⟩
    · by_cases h3 : c.toNat < 65536
      · simp only [if_neg h1, if_neg h2, if_pos h3, List.cons_append, List.nil_append]
        unfold utf8DecodeOne
        dsimp only
        rw [if_neg (by omega)]
        rw [if_neg (by simp only [Bool.and_eq_true, decide_eq_true_eq]; omega)]
        rw [if_pos (by simp only [Bool.and_eq_true, decide_eq_true_eq]; omega)]
        rw [if_pos (by simp only [isCont, Bool.and_eq_true, decide_eq_true_eq]; omega)]
        rw [if_pos (by simp only [Bool.and_eq_true, Bool.not_eq_true',
          decide_eq_true_eq, Bool.and_eq_false_iff, decide_eq_false_iff_not]; omega)]
        simp only [Option.some.injEq, Prod.mk.injEq]
        exact ⟨by omega, trivial⟩
      · simp only [if_neg h1, if_neg h2, if_neg h3, List.cons_append, List.nil_append]
        unfold utf8DecodeOne
        dsimp only
        rw [if_neg (by omega)]
        rw [if_neg (by simp only [Bool.and_eq_true, decide_eq_true_eq]; omega)]
        rw [if_neg (by simp only [Bool.and_eq_true, decide_eq_true_eq]; omega)]
        rw [if_pos (by simp only [Bool.and_eq_true, decide_eq_true_eq]; omega)]
        rw [if_pos (by simp only [isCont, Bool.and_eq_true, decide_eq_true_eq]; omega)]
        rw [if_pos (by simp only [Bool.and_eq_true, decide_eq_true_eq]; omega)]
        simp only [Option.some.injEq, Prod.mk.injEq]
        exact ⟨by omega, trivial⟩

/-- The UTF-8 encoder emits at least one byte per character. -/

theorem utf8EncodeChar_ne_nil (c : Char) : utf8EncodeChar c ≠ [] := by
  unfold utf8EncodeChar
  dsimp only
  split_ifs <;> simp

/-- The UTF-8 decoder driver inverts the encoder, given enough fuel. -/

theorem utf8DecodeAux_encode (repl : Bool) :
    ∀ (cs : List Char) (fuel : Nat),
      (cs.flatMap utf8EncodeChar).length ≤ fuel →
      utf8DecodeAux repl fuel (cs.flatMap utf8EncodeChar) = cs
  | [], fuel, _ => by cases fuel <;> rfl
  | c :: cs', fuel, hf => by
      rw [List.flatMap_cons] at hf ⊢
      cases hfc : utf8EncodeChar c with
      | nil => exact absurd hfc (utf8EncodeChar_ne_nil c)
      | cons b tail =>
          cases fuel with
          | zero =>
              exfalso
              rw [hfc] at hf
              simp at hf
          | succ f =>
              show utf8DecodeAux repl (f + 1) (b :: (tail ++ cs'.flatMap utf8EncodeChar)) =
                c :: cs'
              unfold utf8DecodeAux
              have hdec : utf8DecodeOne (b :: (tail ++ cs'.flatMap utf8EncodeChar)) =
                  some (c.toNat, cs'.flatMap utf8EncodeChar) := by
                have hone := utf8DecodeOne_encodeChar c (cs'.flatMap utf8EncodeChar)
                rw [hfc] at hone
                simpa [List.cons_append] using hone
              rw [hdec]
              dsimp only
              rw [Char.ofNat_toNat]
              congr 1
              apply utf8DecodeAux_encode
              rw [hfc] at hf
              simp only [List.length_append, List.length_cons] at hf ⊢
              omega

/-- Decoding the UTF-8 encoding of a text with replacement semantics gives
the text back. -/

theorem utf8_roundtrip (s : String) : utf8DecodeReplace (utf8Encode s) = s := by
  unfold utf8DecodeReplace utf8Encode
  rw [utf8DecodeAux_encode true s.toList _ (le_refl _)]
  rfl

/-- Every byte the UTF-8 encoder emits is below 256. -/

theorem utf8Encode_lt256 (s : String) : ∀ b ∈ utf8Encode s, b < 256 := by
  intro b hb
  unfold utf8Encode at hb
  rcases List.mem_flatMap.mp hb with ⟨c, _hc, hbc⟩
  have hval := char_range c
  unfold utf8EncodeChar at hbc
  dsimp only at hbc
  split_ifs at hbc <;>
    simp only [List.mem_cons, List.not_mem_nil, or_false] at hbc <;> omega

/-- C9 amendment: the decode/encode round-trip holds exactly on canonical
payloads — every payload in the image of the encoder (the standard base64
encoding of the UTF-8 bytes of a text) is accepted by
`decode_base64_to_html` and decodes to precisely that text, so re-encoding
the decoded text reproduces the payload.  Accepted non-canonical payloads
(skipped whitespace, discarded non-zero trailing bits, bytes invalid as
UTF-8) are exactly the ones that need not round-trip. -/

theorem c9_canonical_payloads_roundtrip (s : String) :
    decode_base64_to_html (b64encodeStr (utf8Encode s)) = some s := by
  unfold decode_base64_to_html
  rw [b64decode_b64encode (utf8Encode s) (utf8Encode_lt256 s)]
  simp only [Option.map_some']
  rw [utf8_roundtrip]

/-- C9 counterexample: the payload "QR==" is accepted by the decoder (its
non-zero trailing bits are silently discarded, decoding to the text "A"),
but re-encoding "A" yields "QQ==", not the original payload — so
decode-then-encode is NOT the identity on all accepted inputs. -/

theorem c9_counterexample :
    decode_base64_to_html "QR==" = some "A" ∧
      b64encodeStr (utf8Encode "A") = "QQ==" ∧ ("QQ==" : String) ≠ "QR==" :=
  ⟨rfl, rfl, by decide⟩
